import Mathlib

/-!
Verification of the rs7 LuaJIT bytecode reader and IR lifter.

The definitions below are a shallow embedding of the Rust sources:
byte streams are lists of naturals below 256, every fallible read
returns an `Option` pairing the parsed value with the remaining stream
(`none` models a Rust panic or end-of-stream), and machine integers are
naturals truncated with explicit masks where the source truncates.
-/

set_option linter.dupNamespace false

namespace RS7

/-- A byte stream: the sequence of bytes still to be consumed. -/
abbrev Stream := List Nat

/-- Byte-order selector mirroring the `EndianBuffer` implementations of
`src/lua/bytecode/reader.rs`. -/
inductive Endian
  | little
  | big
deriving DecidableEq

/-- `Buf::get_u8`: consume one byte; panics (here `none`) on an empty stream. -/
def readU8 : Stream → Option (Nat × Stream)
  | [] => none
  | b :: r => some (b, r)

/-- A 16-bit read honouring the selected byte order (`EndianBuffer::read_u16`,
and `Buf::get_u16` which is big-endian). -/
def readU16 (e : Endian) : Stream → Option (Nat × Stream)
  | b0 :: b1 :: r =>
      match e with
      | .little => some (b0 ||| (b1 <<< 8), r)
      | .big => some ((b0 <<< 8) ||| b1, r)
  | _ => none

/-- A 32-bit read honouring the selected byte order (`EndianBuffer::read_u32`). -/
def readU32 (e : Endian) : Stream → Option (Nat × Stream)
  | b0 :: b1 :: b2 :: b3 :: r =>
      match e with
      | .little => some (b0 ||| (b1 <<< 8) ||| (b2 <<< 16) ||| (b3 <<< 24), r)
      | .big => some ((b0 <<< 24) ||| (b1 <<< 16) ||| (b2 <<< 8) ||| b3, r)
  | _ => none

/-- Continuation loop of the unsigned ULEB128 reader of `src/utils/leb.rs`
(`impl_unsigned`): accumulate 7 bits per byte, shifted by the running shift,
until a byte with its high bit clear terminates the run.  Each addend is
truncated to the target width `w`, mirroring the fixed-width `<<` of the
source. -/
def readLebAux (w : Nat) : Nat → Nat → Stream → Option (Nat × Stream)
  | _, _, [] => none
  | shift, acc, b :: rest =>
      if b &&& 0x80 == 0 then some (acc ||| ((b <<< shift) % 2 ^ w), rest)
      else readLebAux w (shift + 7) (acc ||| (((b &&& 0x7F) <<< shift) % 2 ^ w)) rest

/-- `ReadVar::read_leb` for an unsigned width-`w` target (`src/utils/leb.rs`):
a first byte with the high bit clear is the value itself; otherwise its low
7 bits seed the accumulation loop. -/
def readLebU (w : Nat) : Stream → Option (Nat × Stream)
  | [] => none
  | b :: rest =>
      if b &&& 0x80 == 0 then some (b % 2 ^ w, rest)
      else readLebAux w 7 (b &&& 0x7F) rest

/-- Continuation loop of `bcread_uleb128_33` (`src/lua/bytecode/constant.rs`):
standard ULEB128 groups starting at shift 6, guarded by the source's
`assert!(shift < u32::BITS)`. -/
def uleb33Aux : Nat → Nat → Stream → Option (Nat × Stream)
  | _, _, [] => none
  | shift, value, b :: rest =>
      if 32 ≤ shift then none
      else
        let value' := value ||| ((b &&& 0x7F) <<< shift)
        if b &&& 0x80 == 0 then some (value', rest)
        else uleb33Aux (shift + 7) value' rest

/-- `bcread_uleb128_33` (`src/lua/bytecode/constant.rs`): the first byte's low
bit is the `is_number` flag, its bits 1–6 are the low value bits, and a set
high bit continues as ULEB128 from shift 6. -/
def bcread_uleb128_33 (s : Stream) : Option ((Bool × Nat) × Stream) :=
  match s with
  | [] => none
  | b :: rest =>
      let isNumber := (b &&& 0b01) != 0
      let value := b >>> 1
      if (b &&& 0x80) != 0 then
        (uleb33Aux 6 (value &&& 0x3F) rest).map (fun p => ((isNumber, p.1), p.2))
      else
        some ((isNumber, value), rest)

/-- `Numeric::new` (`src/lua/bytecode/constant.rs`): decode the 64-bit numeric
constant; when the ULEB-33 flag is set a further ULEB32 supplies the high
word. -/
def Numeric.new (s : Stream) : Option (Nat × Stream) :=
  match bcread_uleb128_33 s with
  | none => none
  | some ((isNumber, lo), rest) =>
      if isNumber then
        (readLebU 32 rest).map (fun p => ((p.1 <<< 32) ||| lo, p.2))
      else
        some (lo, rest)

/-- `read_string` (`src/lua/bytecode/primitives.rs`): consume exactly `n`
bytes; `copy_to_slice` panics when fewer remain. -/
def read_string (n : Nat) (s : Stream) : Option (Stream × Stream) :=
  if n ≤ s.length then some (s.take n, s.drop n) else none

/-- `read_cstring` (`src/lua/bytecode/primitives.rs`): consume bytes up to a
null terminator; `get_u8` panics when the stream ends first. -/
def read_cstring : Stream → Option (Stream × Stream)
  | [] => none
  | 0 :: r => some ([], r)
  | b :: r => (read_cstring r).map (fun p => (b :: p.1, p.2))

/-- Run a sub-parser a fixed number of times, threading the stream, as the
`(0..n).map(|_| ...)` loops of the source do. -/
def readN {α : Type} (p : Stream → Option (α × Stream)) : Nat → Stream → Option (List α × Stream)
  | 0, s => some ([], s)
  | n + 1, s =>
      match p s with
      | none => none
      | some (a, s1) => (readN p n s1).map (fun q => (a :: q.1, q.2))

/-- Reinterpret a `u32` bit pattern as `i32` (`u32::cast_signed`). -/
def u32CastSigned (v : Nat) : Int :=
  if v < 2 ^ 31 then (v : Int) else (v : Int) - 2 ^ 32

/-- Reinterpret a `u64` bit pattern as `i64` (`u64::cast_signed`). -/
def u64CastSigned (v : Nat) : Int :=
  if v < 2 ^ 63 then (v : Int) else (v : Int) - 2 ^ 64

/-- `TableItem` (`src/lua/bytecode/table_item.rs`); strings are kept as raw
byte sequences and the `Numeric` payload is its 64-bit pattern. -/
inductive TableItem
  | Nil
  | False
  | True
  | Integer (value : Int)
  | Numeric (value : Nat)
  | String (bytes : Stream)
deriving DecidableEq

/-- `TableItem::new` (`src/lua/bytecode/table_item.rs`, `bcread_ktabk`): a
ULEB32 tag selects the item kind; tag 4 reads `lo` then `hi` (in that order)
and combines them as `(hi << 32) | lo`; a tag `n ≥ 5` reads an `n - 5` byte
string. -/
def TableItem.new (s : Stream) : Option (TableItem × Stream) :=
  match readLebU 32 s with
  | none => none
  | some (tp, s1) =>
      if tp = 0 then some (.Nil, s1)
      else if tp = 1 then some (.False, s1)
      else if tp = 2 then some (.True, s1)
      else if tp = 3 then
        (readLebU 32 s1).map (fun p => (.Integer (u32CastSigned p.1), p.2))
      else if tp = 4 then
        match readLebU 32 s1 with
        | none => none
        | some (lo, s2) =>
            (readLebU 32 s2).map (fun p => (.Numeric ((p.1 <<< 32) ||| lo), p.2))
      else
        (read_string (tp - 5) s1).map (fun p => (.String p.1, p.2))

/-- `read_parts` (`src/lua/bytecode/constant.rs`): two ULEB32 halves, `hi`
first, combined as `(hi << 32) | lo`. -/
def read_parts (s : Stream) : Option (Nat × Stream) :=
  match readLebU 32 s with
  | none => none
  | some (hi, s1) =>
      (readLebU 32 s1).map (fun p => ((hi <<< 32) ||| p.1, p.2))

/-- `Complex` (`src/lua/bytecode/constant.rs`): the complex-constant sum
type. -/
inductive Complex
  | Prototype (index : Nat)
  | Table (array : List TableItem) (hash : List (TableItem × TableItem))
  | Signed (value : Int)
  | Unsigned (value : Nat)
  | Complex (real imaginary : Nat)
  | String (bytes : Stream)
deriving DecidableEq

/-- `Complex::new` (`src/lua/bytecode/constant.rs`, `bcread_kgc`): a ULEB32
tag dispatches on the constant kind.  Tag 0 stores `proto - 1` (a `usize`
subtraction that panics when `proto = 0`); tag 2 reinterprets the combined
halves as `i64`; a tag `n ≥ 5` reads an `n - 5` byte string. -/
def Complex.new (proto : Nat) (s : Stream) : Option (RS7.Complex × Stream) :=
  match readLebU 32 s with
  | none => none
  | some (tp, s1) =>
      if tp = 0 then
        if proto = 0 then none else some (.Prototype (proto - 1), s1)
      else if tp = 1 then
        match readLebU 32 s1 with
        | none => none
        | some (narray, s2) =>
            match readLebU 32 s2 with
            | none => none
            | some (nhash, s3) =>
                match readN TableItem.new narray s3 with
                | none => none
                | some (array, s4) =>
                    let pair := fun (t : Stream) =>
                      match TableItem.new t with
                      | none => none
                      | some (key, t1) =>
                          (TableItem.new t1).map (fun p => ((key, p.1), p.2))
                    (readN pair nhash s4).map (fun p => (.Table array p.1, p.2))
      else if tp = 2 then
        (read_parts s1).map (fun p => (.Signed (u64CastSigned p.1), p.2))
      else if tp = 3 then
        (read_parts s1).map (fun p => (.Unsigned p.1, p.2))
      else if tp = 4 then
        match read_parts s1 with
        | none => none
        | some (real, s2) =>
            (read_parts s2).map (fun p => (.Complex real p.1, p.2))
      else
        (read_string (tp - 5) s1).map (fun p => (.String p.1, p.2))

/-- Variable-info type tags of the debug block
(`src/lua/bytecode/debug.rs`, `variable::Type`). -/
inductive VarType
  | End
  | ForIdx
  | ForStop
  | ForStep
  | ForGen
  | ForState
  | ForCtl
  | String
deriving DecidableEq

/-- `From<u8> for Type` (`src/lua/bytecode/debug.rs`): tags 7 and above map to
`String`. -/
def VarType.ofTag (tp : Nat) : VarType :=
  match tp with
  | 0 => .End
  | 1 => .ForIdx
  | 2 => .ForStop
  | 3 => .ForStep
  | 4 => .ForGen
  | 5 => .ForState
  | 6 => .ForCtl
  | _ => .String

/-- A variable-info entry (`src/lua/bytecode/debug.rs`, `Variable`); the name
is kept as raw bytes. -/
structure Variable where
  name : Stream
  tp : VarType
  scopeStart : Nat
  scopeEnd : Nat
deriving DecidableEq

/-- `Variable::new` (`src/lua/bytecode/debug.rs`): a tag of 7 or more reads a
null-terminated name and prepends the tag byte to it; every non-`End` tag
reads two ULEB32 scope bounds. -/
def Variable.new (tp : Nat) (s : Stream) : Option (Variable × Stream) :=
  let nameStep : Option (Stream × Stream) :=
    if 7 ≤ tp then
      (read_cstring s).map (fun p => (tp :: p.1, p.2))
    else
      some ([], s)
  match nameStep with
  | none => none
  | some (name, s1) =>
      if tp ≠ 0 then
        match readLebU 32 s1 with
        | none => none
        | some (start, s2) =>
            (readLebU 32 s2).map
              (fun p => ({ name := name, tp := VarType.ofTag tp,
                           scopeStart := start, scopeEnd := p.1 }, p.2))
      else
        some ({ name := name, tp := VarType.ofTag tp,
                scopeStart := 0, scopeEnd := 0 }, s1)

/-- The decoded debug block (`src/lua/bytecode/debug.rs`, `Debug`). -/
structure Debug where
  lines : List Nat
  upvalues : List Stream
  vars : List Variable
deriving DecidableEq

/-- The variable-info loop of `Debug::new`: read a tag byte, stop on `End`,
otherwise parse one entry and continue.  Each iteration consumes at least the
tag byte, so fuel equal to the stream length never runs out. -/
def readVars : Nat → Stream → Option (List Variable × Stream)
  | _, [] => none
  | 0, _ :: _ => none
  | fuel + 1, tp :: r =>
      if tp = 0 then some ([], r)
      else
        match Variable.new tp r with
        | none => none
        | some (v, r1) => (readVars fuel r1).map (fun p => (v :: p.1, p.2))

/-- `Debug::new` (`src/lua/bytecode/debug.rs`): the per-line entry width is
1 byte for `line_count < 256`, 2 bytes below 65536, 4 bytes otherwise;
`sizeinsn` entries are read into a local vector (by insertion into a
zero-prefilled one) that the constructor then discards, storing
`lines: vec![]`; then `upvalue_count` null-terminated names and the
variable-info stream follow. -/
def Debug.new (e : Endian) (sizeinsn lineCount upvalueCount : Nat) (s : Stream) :
    Option (Debug × Stream) :=
  let lineReader : Stream → Option (Nat × Stream) :=
    if 65536 ≤ lineCount then readU32 e
    else if 256 ≤ lineCount then readU16 e
    else readU8
  match readN lineReader sizeinsn s with
  | none => none
  | some (_, s1) =>
      match readN read_cstring upvalueCount s1 with
      | none => none
      | some (upvalues, s2) =>
          match readVars s2.length s2 with
          | none => none
          | some (vars, s3) =>
              some ({ lines := [], upvalues := upvalues, vars := vars }, s3)

/-- A raw bytecode instruction word (`src/lua/bytecode/instruction.rs`):
`get_u32_ne().to_ne_bytes()` stores the four wire bytes unchanged. -/
structure Instruction where
  b0 : Nat
  b1 : Nat
  b2 : Nat
  b3 : Nat
deriving DecidableEq

/-- `Instruction::new` (`src/lua/bytecode/instruction.rs`): consume four
bytes. -/
def Instruction.new : Stream → Option (Instruction × Stream)
  | x0 :: x1 :: x2 :: x3 :: r => some (⟨x0, x1, x2, x3⟩, r)
  | _ => none

/-- `Instruction::opcode`: the first wire byte. -/
def Instruction.opcode (i : Instruction) : Nat := i.b0

/-- A parsed prototype (`src/lua/bytecode/prototype.rs`, `Prototype`). -/
structure Prototype where
  index : Nat
  flags : Nat
  numparams : Nat
  framesize : Nat
  debug : Option Debug
  instructions : List Instruction
  uvs : List Nat
  kgc : List Complex
  kn : List Nat
deriving DecidableEq

/-- `Prototype::new` (`src/lua/bytecode/prototype.rs`): the frame reader.
A ULEB32 `size` of zero terminates the dump (`some (none, _)` here); the
header bytes, the three ULEB32 section counts, the optional debug header,
and then the instruction, upvalue (big-endian `get_u16`), complex-constant
and numeric-constant sections follow; a trailing debug block is read when
`sizedbg > 0`.  The source never validates `size` against the bytes actually
consumed (its `TODO: Validate that we read size bytes`). -/
def Prototype.new (stripped : Bool) (e : Endian) (index : Nat) (s : Stream) :
    Option (Option Prototype × Stream) :=
  match readLebU 32 s with
  | none => none
  | some (size, s1) =>
      if size = 0 then some (none, s1)
      else
        match s1 with
        | flags :: numparams :: framesize :: sizeuv :: s2 =>
            match readLebU 32 s2 with
            | none => none
            | some (sizekgc, s3) =>
                match readLebU 32 s3 with
                | none => none
                | some (sizekn, s4) =>
                    match readLebU 32 s4 with
                    | none => none
                    | some (sizeinsn, s5) =>
                        let dbgHeader : Option ((Nat × Nat) × Stream) :=
                          if !stripped then
                            match readLebU 32 s5 with
                            | none => none
                            | some (sizedbg, s6) =>
                                if sizedbg ≠ 0 then
                                  match readLebU 32 s6 with
                                  | none => none
                                  | some (_, s7) =>
                                      (readLebU 32 s7).map
                                        (fun p => ((sizedbg, p.1), p.2))
                                else some ((sizedbg, 0), s6)
                          else some ((0, 0), s5)
                        match dbgHeader with
                        | none => none
                        | some ((sizedbg, numline), s8) =>
                            match readN Instruction.new sizeinsn s8 with
                            | none => none
                            | some (instructions, s9) =>
                                match readN (readU16 .big) sizeuv s9 with
                                | none => none
                                | some (uvs, s10) =>
                                    match readN (Complex.new index) sizekgc s10 with
                                    | none => none
                                    | some (kgc, s11) =>
                                        match readN Numeric.new sizekn s11 with
                                        | none => none
                                        | some (kn, s12) =>
                                            let dbgStep :
                                                Option (Option Debug × Stream) :=
                                              if 0 < sizedbg then
                                                (Debug.new e sizeinsn numline
                                                    sizeuv s12).map
                                                  (fun p => (some p.1, p.2))
                                              else some (none, s12)
                                            match dbgStep with
                                            | none => none
                                            | some (debug, s13) =>
                                                some (some
                                                  { index := index,
                                                    flags := flags,
                                                    numparams := numparams,
                                                    framesize := framesize,
                                                    debug := debug,
                                                    instructions := instructions,
                                                    uvs := uvs,
                                                    kgc := kgc,
                                                    kn := kn }, s13)
        | _ => none

/-- `Primitive` (`src/lua/ir/insn.rs`). -/
inductive Primitive
  | Nil
  | True
  | False
deriving DecidableEq

/-- `CmpOp` (`src/lua/ir/insn.rs`): the comparison opcode of `Expr::Binary`. -/
inductive CmpOp
  | Eq
  | Ne
  | Lt
  | Le
  | Gt
  | Ge
deriving DecidableEq

/-- `BasicOperand` (`src/lua/ir/insn.rs`): a primitive IR operand. -/
inductive BasicOperand
  | Var (v : Nat)
  | Upvalue (v : Nat)
  | UnsignedLiteral (v : Nat)
  | SignedLiteral (v : Int)
  | Pri (p : Primitive)
  | Num (v : Nat)
  | Str (v : Nat)
  | Table (v : Nat)
  | Func (v : Nat)
  | Constant (v : Nat)
  | Branch (v : Nat)
deriving DecidableEq

/-- `Expr` (`src/lua/ir/insn.rs`): a composite operand shape. -/
inductive Expr
  | Binary (op : CmpOp) (lhs rhs : BasicOperand)
  | Add (lhs rhs : BasicOperand)
  | Sub (lhs rhs : BasicOperand)
  | Mul (lhs rhs : BasicOperand)
  | Div (lhs rhs : BasicOperand)
  | Rem (lhs rhs : BasicOperand)
  | Pow (lhs rhs : BasicOperand)
  | Cat (lhs rhs : BasicOperand)
  | Index (lhs rhs : BasicOperand)
  | Not (value : BasicOperand)
  | Negate (value : BasicOperand)
  | Len (value : BasicOperand)
deriving DecidableEq

/-- `Operand` (`src/lua/ir/insn.rs`). -/
inductive Operand
  | Expr (e : RS7.Expr)
  | Basic (b : BasicOperand)
deriving DecidableEq

/-- `Label` (`src/lua/ir/insn.rs`): the destination of a branch. -/
inductive Label
  | None
  | Label (ir bc : Nat)
deriving DecidableEq

/-- `Insn` (`src/lua/ir/insn.rs`): an IR instruction. -/
inductive Insn
  | Assign (lhs rhs : Operand)
  | ConditionalBranch (cond : Operand) (target : Label)
  | Branch (target : Label)
  | Return (base : BasicOperand) (count : Nat)
deriving DecidableEq

/-- The emitter's state (`src/lua/ir/emitter.rs`, `Emitter`): the IR
instructions emitted so far. -/
abbrev Emitter := List Insn

/-- `Emitter::emit`: append one instruction. -/
def Emitter.emit (e : Emitter) (insn : Insn) : Emitter := e ++ [insn]

/-- `Emitter::fixup_branch` (`src/lua/ir/emitter.rs`): if the last emitted
instruction is a `ConditionalBranch` whose target is still `None`, overwrite
that target in place; otherwise append a fresh `Branch`.  The function first
indexes `instructions[len() - 1]`, so an empty emitter panics on the `usize`
underflow (`none` here). -/
def Emitter.fixup_branch (e : Emitter) (tgt : Label) : Option Emitter :=
  match e.getLast? with
  | Option.none => none
  | some (Insn.ConditionalBranch cond Label.None) =>
      some (e.dropLast ++ [Insn.ConditionalBranch cond tgt])
  | some _ => some (e.emit (Insn.Branch tgt))

/-- The bytecode instruction enumeration consumed by the lifter
(`bytecode::Instruction`); variants and operand fields are as matched in
`Insn::parse` (`src/lua/ir/insn.rs`).  Operands `a`, `b`, `c` are `u8`
values and `d` is a `u16` value. -/
inductive BCInstruction
  | ISLT (a d : Nat)
  | ISGE (a d : Nat)
  | ISLE (a d : Nat)
  | ISGT (a d : Nat)
  | ISEQV (a d : Nat)
  | ISNEV (a d : Nat)
  | ISEQS (a d : Nat)
  | ISNES (a d : Nat)
  | ISEQN (a d : Nat)
  | ISNEN (a d : Nat)
  | ISEQP (a d : Nat)
  | ISNEP (a d : Nat)
  | ISTC (a d : Nat)
  | ISFC (a d : Nat)
  | IST (d : Nat)
  | ISF (d : Nat)
  | ISTYPE (a d : Nat)
  | ISNUM (a d : Nat)
  | MOV (a d : Nat)
  | NOT (a d : Nat)
  | UNM (a d : Nat)
  | LEN (a d : Nat)
  | ADDVN (a b c : Nat)
  | SUBVN (a b c : Nat)
  | MULVN (a b c : Nat)
  | DIVVN (a b c : Nat)
  | MODVN (a b c : Nat)
  | ADDNV (a b c : Nat)
  | SUBNV (a b c : Nat)
  | MULNV (a b c : Nat)
  | DIVNV (a b c : Nat)
  | MODNV (a b c : Nat)
  | ADDVV (a b c : Nat)
  | SUBVV (a b c : Nat)
  | MULVV (a b c : Nat)
  | DIVVV (a b c : Nat)
  | MODVV (a b c : Nat)
  | POW (a b c : Nat)
  | CAT (a b c : Nat)
  | KSTR (a d : Nat)
  | KCDATA (a d : Nat)
  | KSHORT (a d : Nat)
  | KNUM (a d : Nat)
  | KPRI (a d : Nat)
  | KNIL (a d : Nat)
  | UGET (a d : Nat)
  | USETV (a d : Nat)
  | USETS (a d : Nat)
  | USETN (a d : Nat)
  | USETP (a d : Nat)
  | UCLO (a d : Nat)
  | FNEW (a d : Nat)
  | TNEW (a d : Nat)
  | TDUP (a d : Nat)
  | GGET (a d : Nat)
  | GSET (a d : Nat)
  | TGETV (a b c : Nat)
  | TGETS (a b c : Nat)
  | TGETB (a b c : Nat)
  | TGETR (a b c : Nat)
  | TSETV (a b c : Nat)
  | TSETS (a b c : Nat)
  | TSETB (a b c : Nat)
  | TSETR (a b c : Nat)
  | TSETM (a d : Nat)
  | CALLM (a b c : Nat)
  | CALL (a b c : Nat)
  | CALLMT (a d : Nat)
  | CALLT (a d : Nat)
  | ITERC (a b c : Nat)
  | ITERN (a b c : Nat)
  | VARG (a b c : Nat)
  | ISNEXT (a d : Nat)
  | RETM (a d : Nat)
  | RET (a d : Nat)
  | RET0 (a d : Nat)
  | RET1 (a d : Nat)
  | FORI (a d : Nat)
  | JFORI (a d : Nat)
  | FORL (a d : Nat)
  | IFORL (a d : Nat)
  | JFORL (a d : Nat)
  | ITERL (a d : Nat)
  | IITERL (a d : Nat)
  | JITERL (a d : Nat)
  | LOOP (a d : Nat)
  | ILOOP (a d : Nat)
  | JLOOP (a d : Nat)
  | JMP (a d : Nat)
  | FUNCF (a : Nat)
  | IFUNCF (a : Nat)
  | JFUNCF (a d : Nat)
  | FUNCV (a : Nat)
  | IFUNCV (a : Nat)
  | JFUNCV (a d : Nat)
  | FUNCC (a : Nat)
  | FUNCCW (a : Nat)
  | FUNC (a : Nat)

/-- The `op!(Pri v)` macro arm (`src/lua/ir/insn.rs`): `0 → Nil`, `1 → True`,
`2 → False`; anything else hits `unimplemented!` (a panic, `none` here). -/
def parsePri (v : Nat) : Option Primitive :=
  match v with
  | 0 => some .Nil
  | 1 => some .True
  | 2 => some .False
  | _ => none

/-- `Insn::emit_cond_branch` (`src/lua/ir/insn.rs`): emit a comparison as a
`ConditionalBranch` whose target is left `None` for a later
`fixup_branch`. -/
def Insn.emit_cond_branch (e : Emitter) (op : CmpOp) (a d : Nat) : Emitter :=
  e.emit (Insn.ConditionalBranch
    (Operand.Expr (Expr.Binary op (BasicOperand.Var a) (BasicOperand.Var d)))
    Label.None)

/-- `Insn::emit_assignment` (`src/lua/ir/insn.rs`). -/
def Insn.emit_assignment (e : Emitter) (lhs rhs : Operand) : Emitter :=
  e.emit (Insn.Assign lhs rhs)

/-- Shorthand for a basic operand used as an `Operand` (the `Into<Operand>`
impls of `src/lua/ir/insn.rs`). -/
def ob (b : BasicOperand) : Operand := Operand.Basic b

/-- `Insn::parse` (`src/lua/ir/insn.rs`): the per-opcode lifting rules,
threading the emitter state.  `todo!()` arms and the `unimplemented!` of
`op!(Pri …)` are panics (`none`); `RET` computes `count = d - 1` on a `u16`,
which panics when `d = 0`. -/
def Insn.parse (insn : BCInstruction) (e : Emitter) : Option Emitter :=
  match insn with
  | .ISLT a d => some (Insn.emit_cond_branch e .Lt a d)
  | .ISGE a d => some (Insn.emit_cond_branch e .Ge a d)
  | .ISLE a d => some (Insn.emit_cond_branch e .Le a d)
  | .ISGT a d => some (Insn.emit_cond_branch e .Gt a d)
  | .ISEQV a d => some (Insn.emit_cond_branch e .Eq a d)
  | .ISNEV a d => some (Insn.emit_cond_branch e .Ne a d)
  | .ISEQS a d => some (Insn.emit_cond_branch e .Eq a d)
  | .ISNES a d => some (Insn.emit_cond_branch e .Ne a d)
  | .ISEQN a d => some (Insn.emit_cond_branch e .Eq a d)
  | .ISNEN a d => some (Insn.emit_cond_branch e .Ne a d)
  | .ISEQP a d => some (Insn.emit_cond_branch e .Eq a d)
  | .ISNEP a d => some (Insn.emit_cond_branch e .Ne a d)
  | .ISTC _ _ => none
  | .ISFC _ _ => none
  | .IST _ => none
  | .ISF _ => none
  | .ISTYPE _ _ => none
  | .ISNUM _ _ => none
  | .MOV a d => some (Insn.emit_assignment e (ob (.Var a)) (ob (.Var d)))
  | .NOT a d => some (Insn.emit_assignment e (ob (.Var a)) (.Expr (.Not (.Var d))))
  | .UNM a d => some (Insn.emit_assignment e (ob (.Var a)) (.Expr (.Negate (.Var d))))
  | .LEN a d => some (Insn.emit_assignment e (ob (.Var a)) (.Expr (.Len (.Var d))))
  | .ADDVN a b c => some (Insn.emit_assignment e (ob (.Var a)) (.Expr (.Add (.Var b) (.Num c))))
  | .SUBVN a b c => some (Insn.emit_assignment e (ob (.Var a)) (.Expr (.Sub (.Var b) (.Num c))))
  | .MULVN a b c => some (Insn.emit_assignment e (ob (.Var a)) (.Expr (.Mul (.Var b) (.Num c))))
  | .DIVVN a b c => some (Insn.emit_assignment e (ob (.Var a)) (.Expr (.Div (.Var b) (.Num c))))
  | .MODVN a b c => some (Insn.emit_assignment e (ob (.Var a)) (.Expr (.Mul (.Var b) (.Num c))))
  | .ADDNV a b c => some (Insn.emit_assignment e (ob (.Var a)) (.Expr (.Add (.Num b) (.Var c))))
  | .SUBNV a b c => some (Insn.emit_assignment e (ob (.Var a)) (.Expr (.Sub (.Num b) (.Var c))))
  | .MULNV a b c => some (Insn.emit_assignment e (ob (.Var a)) (.Expr (.Mul (.Num b) (.Var c))))
  | .DIVNV a b c => some (Insn.emit_assignment e (ob (.Var a)) (.Expr (.Div (.Num b) (.Var c))))
  | .MODNV a b c => some (Insn.emit_assignment e (ob (.Var a)) (.Expr (.Rem (.Num b) (.Var c))))
  | .ADDVV a b c => some (Insn.emit_assignment e (ob (.Var a)) (.Expr (.Add (.Var b) (.Var c))))
  | .SUBVV a b c => some (Insn.emit_assignment e (ob (.Var a)) (.Expr (.Sub (.Var b) (.Var c))))
  | .MULVV a b c => some (Insn.emit_assignment e (ob (.Var a)) (.Expr (.Mul (.Var b) (.Var c))))
  | .DIVVV a b c => some (Insn.emit_assignment e (ob (.Var a)) (.Expr (.Div (.Var b) (.Var c))))
  | .MODVV a b c => some (Insn.emit_assignment e (ob (.Var a)) (.Expr (.Rem (.Var b) (.Var c))))
  | .POW a b c => some (Insn.emit_assignment e (ob (.Var a)) (.Expr (.Pow (.Var b) (.Var c))))
  | .CAT a b c => some (Insn.emit_assignment e (ob (.Var a)) (.Expr (.Cat (.Var b) (.Var c))))
  | .KSTR a d => some (Insn.emit_assignment e (ob (.Var a)) (ob (.Str d)))
  | .KCDATA _ _ => none
  | .KSHORT _ _ => none
  | .KNUM a d => some (Insn.emit_assignment e (ob (.Var a)) (ob (.Num d)))
  | .KPRI a d =>
      (parsePri d).map (fun p => Insn.emit_assignment e (ob (.Var a)) (ob (.Pri p)))
  | .KNIL _ _ => none
  | .UGET a d => some (Insn.emit_assignment e (ob (.Var a)) (ob (.Upvalue d)))
  | .USETV a d => some (Insn.emit_assignment e (ob (.Upvalue a)) (ob (.Var d)))
  | .USETS a d => some (Insn.emit_assignment e (ob (.Upvalue a)) (ob (.Str d)))
  | .USETN a d => some (Insn.emit_assignment e (ob (.Upvalue a)) (ob (.Num d)))
  | .USETP a d =>
      (parsePri d).map (fun p => Insn.emit_assignment e (ob (.Upvalue a)) (ob (.Pri p)))
  | .UCLO _ _ => none
  | .FNEW _ _ => none
  | .TNEW _ _ => none
  | .TDUP _ _ => none
  | .GGET _ _ => none
  | .GSET _ _ => none
  | .TGETV a b c => some (Insn.emit_assignment e (ob (.Var a)) (.Expr (.Index (.Var b) (.Var c))))
  | .TGETS a b c => some (Insn.emit_assignment e (ob (.Var a)) (.Expr (.Index (.Var b) (.Str c))))
  | .TGETB a b c => some (Insn.emit_assignment e (ob (.Var a)) (.Expr (.Index (.Var b) (.UnsignedLiteral c))))
  | .TGETR _ _ _ => none
  | .TSETV a b c => some (Insn.emit_assignment e (.Expr (.Index (.Var b) (.Var c))) (ob (.Var a)))
  | .TSETS a b c => some (Insn.emit_assignment e (.Expr (.Index (.Var b) (.Var c))) (ob (.Str a)))
  | .TSETB a b c => some (Insn.emit_assignment e (.Expr (.Index (.Var b) (.Var c))) (ob (.UnsignedLiteral a)))
  | .TSETR _ _ _ => none
  | .TSETM _ _ => none
  | .CALLM _ _ _ => none
  | .CALL _ _ _ => none
  | .CALLMT _ _ => none
  | .CALLT _ _ => none
  | .ITERC _ _ _ => none
  | .ITERN _ _ _ => none
  | .VARG _ _ _ => none
  | .ISNEXT _ _ => none
  | .RETM _ _ => none
  | .RET a d =>
      if d = 0 then none
      else some (e.emit (Insn.Return (.Var a) (d - 1)))
  | .RET0 a _ => some (e.emit (Insn.Return (.Var a) 0))
  | .RET1 a _ => some (e.emit (Insn.Return (.Var a) 1))
  | .FORI _ _ => none
  | .JFORI _ _ => none
  | .FORL _ _ => none
  | .IFORL _ _ => none
  | .JFORL _ _ => none
  | .ITERL _ _ => none
  | .IITERL _ _ => none
  | .JITERL _ _ => none
  | .LOOP _ _ => none
  | .ILOOP _ _ => none
  | .JLOOP _ _ => none
  | .JMP _ d => e.fixup_branch (Label.Label 0 d)
  | .FUNCF _ => none
  | .IFUNCF _ => none
  | .JFUNCF _ _ => none
  | .FUNCV _ => none
  | .IFUNCV _ => none
  | .JFUNCV _ _ => none
  | .FUNCC _ => none
  | .FUNCCW _ => none
  | .FUNC _ => none

/-- An operand field of an opcode-table variant (`src/insns.rs` of the
`rs7-proc` crate): one of `a`, `b`, `c`, `d`. -/
inductive Field
  | a
  | b
  | c
  | d
deriving DecidableEq

/-- One variant of the declarative opcode table: its ordered operand fields
and the `added` (default 1) / optional `removed` version attributes
(`Metadata` in `src/insns.rs`). -/
structure TableEntry where
  fields : List Field
  added : Nat
  removed : Option Nat
deriving DecidableEq

/-- `VersionRange` (`src/insns.rs`): a version interval together with the
indices of the variants live in it, in declaration order (the `BTreeSet`
iterates indices in increasing order). -/
structure VersionRange where
  start : Nat
  stop : Nat
  instructions : List Nat
deriving DecidableEq

/-- The live-variant filter of `collect_instruction_ranges`: index `i` is
live at `version` unless `version < added` or
`version ≥ removed.unwrap_or(0xFF)`. -/
def liveSet (tbl : List TableEntry) (version : Nat) : List Nat :=
  (tbl.enum.filter (fun p =>
    decide (p.2.added ≤ version) && decide (version < p.2.removed.getD 0xFF))).map
    Prod.fst

/-- The sweep lower bound of `collect_instruction_ranges`:
`min(added.min(removed.unwrap_or(added)))`, defaulting to 1 on an empty
table. -/
def minVersion (tbl : List TableEntry) : Nat :=
  match tbl.map (fun e => min e.added (e.removed.getD e.added)) with
  | [] => 1
  | x :: xs => xs.foldl min x

/-- The sweep upper bound of `collect_instruction_ranges`:
`max(added.max(removed.unwrap_or(added))) + 1`, with the same default. -/
def maxVersion (tbl : List TableEntry) : Nat :=
  (match tbl.map (fun e => max e.added (e.removed.getD e.added)) with
   | [] => 1
   | x :: xs => xs.foldl max x) + 1

/-- One step of the coalescing loop of `make_stable_ranges`. -/
def msrStep (st : List VersionRange × Option VersionRange) (p : Nat × List Nat) :
    List VersionRange × Option VersionRange :=
  match st.2 with
  | some r =>
      if r.instructions = p.2 then (st.1, some { r with stop := r.stop + 1 })
      else (st.1 ++ [r], some ⟨p.1, p.1 + 1, p.2⟩)
  | none => (st.1, some ⟨p.1, p.1 + 1, p.2⟩)

/-- `make_stable_ranges` (`src/insns.rs`): coalesce consecutive versions with
identical live sets; the final open-ended range has its `end` rewritten to
its `start`, which the generator later renders as a bare `version ≥ start`
check. -/
def makeStableRanges (pairs : List (Nat × List Nat)) : List VersionRange :=
  match pairs.foldl msrStep ([], none) with
  | (result, some r) => result ++ [{ r with stop := r.start }]
  | (result, none) => result

/-- `collect_instruction_ranges` (`src/insns.rs`): sweep versions from the
lower to the upper bound and coalesce. -/
def collectInstructionRanges (tbl : List TableEntry) : List VersionRange :=
  let lo := minVersion tbl
  let hi := maxVersion tbl
  makeStableRanges ((List.range' lo (hi + 1 - lo)).map (fun v => (v, liveSet tbl v)))

/-- Failure modes of the generated decoder (`src/insns.rs`): the
`Unsupported bytecode version` and `Unknown bytecode instruction` panics. -/
inductive DecodeError
  | UnsupportedVersion
  | UnknownOpcode
deriving DecidableEq

/-- A decoded instruction: the selected variant's declaration index and its
extracted operand fields. -/
structure Decoded where
  tag : Nat
  fields : List (Field × Nat)
deriving DecidableEq

/-- The generated per-field extraction (`decoded_fields` in `src/insns.rs`):
`a = (w >> 8) & 0xFF`, `b = (w >> 16) & 0xFF`, `c = (w >> 24) & 0xFF`,
`d = (w >> 16) & 0xFFFF`. -/
def decodeField : Field → Nat → Nat
  | .a, w => (w >>> 8) &&& 0xFF
  | .b, w => (w >>> 16) &&& 0xFF
  | .c, w => (w >>> 24) &&& 0xFF
  | .d, w => (w >>> 16) &&& 0xFFFF

/-- The generated `parse_T` function for the variant at declaration index
`idx`: extract every declared field of that variant from the word. -/
def decodeVariant (tbl : List TableEntry) (idx : Nat) (w : Nat) : Decoded :=
  { tag := idx,
    fields := (tbl.getD idx ⟨[], 1, none⟩).fields.map (fun f => (f, decodeField f w)) }

/-- The generated range guard: `version >= start` when the range was left
half-open (`start == end` after `make_stable_ranges`), otherwise
`version >= start && version < end`. -/
def rangeCheck (r : VersionRange) (version : Nat) : Bool :=
  if r.start = r.stop then decide (r.start ≤ version)
  else decide (r.start ≤ version) && decide (version < r.stop)

/-- The chain of generated `if` blocks: ranges are tested newest first (the
generator `.rev()`s them); an empty live table panics with
`UnsupportedVersion`, an opcode beyond the live table panics with
`UnknownOpcode`, and falling off the end panics with
`UnsupportedVersion`. -/
def dispatch (tbl : List TableEntry) (version w : Nat) :
    List VersionRange → Except DecodeError Decoded
  | [] => .error .UnsupportedVersion
  | r :: rs =>
      if rangeCheck r version then
        if r.instructions.length = 0 then .error .UnsupportedVersion
        else
          match r.instructions.get? (w &&& 0xFF) with
          | some idx => .ok (decodeVariant tbl idx w)
          | none => .error .UnknownOpcode
      else dispatch tbl version w rs

/-- The synthesized `Instruction::new` body (`bytecode_insn_impl`): decode a
32-bit word against the version-range list of the opcode table. -/
def decode (tbl : List TableEntry) (version w : Nat) : Except DecodeError Decoded :=
  dispatch tbl version w (collectInstructionRanges tbl).reverse

/-- The opcode table of the source test `valid_codegen`
(`src/insns.rs`): `[A, B added=2, C removed=4, D removed=2, AD]`. -/
def testTable : List TableEntry :=
  [ { fields := [.a], added := 1, removed := none },
    { fields := [.b], added := 2, removed := none },
    { fields := [.c], added := 1, removed := some 4 },
    { fields := [.d], added := 1, removed := some 2 },
    { fields := [.a, .d], added := 1, removed := none } ]

/-- The fusion guard of `fixup_branch`: the last emitted instruction is a
`ConditionalBranch` whose target is still `None`. -/
def lastIsPendingCond (e : Emitter) : Bool :=
  match e.getLast? with
  | some (Insn.ConditionalBranch _ Label.None) => true
  | _ => false

/-! ### Helper lemmas about the emitter -/

theorem fixup_branch_pending (e : Emitter) (cond : Operand) (tgt : Label) :
    Emitter.fixup_branch (e ++ [Insn.ConditionalBranch cond Label.None]) tgt =
      some (e ++ [Insn.ConditionalBranch cond tgt]) := by
  unfold Emitter.fixup_branch
  rw [List.getLast?_concat]
  simp [List.dropLast_concat]

theorem fixup_branch_nonpending (e : Emitter) (tgt : Label)
    (hne : e ≠ []) (hp : lastIsPendingCond e = false) :
    Emitter.fixup_branch e tgt = some (e ++ [Insn.Branch tgt]) := by
  unfold lastIsPendingCond at hp
  unfold Emitter.fixup_branch Emitter.emit
  cases hlast : e.getLast? with
  | none =>
      rw [List.getLast?_eq_none_iff] at hlast
      exact absurd hlast hne
  | some i =>
      rw [hlast] at hp
      cases i with
      | ConditionalBranch cond target =>
          cases target with
          | None => simp at hp
          | Label ir bc => rfl
      | Assign lhs rhs => rfl
      | Branch t => rfl
      | Return base count => rfl

/-! ### Claim theorems -/

/-- Claim C1: lifting a compare such as `ISLT{a, d}` immediately followed by a
`JMP` with target 17 appends exactly one IR instruction, the fused
`ConditionalBranch` carrying `Binary(Lt, Var a, Var d)` and the label
`bc = 17`; and a `JMP` with target 9 lifted into a non-empty emitter whose
last instruction is not a pending conditional branch appends exactly one
`Branch` to `bc = 9`. -/
theorem compare_then_jump_fusion (e e' : Emitter) (a d j j' : Nat)
    (_ha : a < 2 ^ 8) (_hd : d < 2 ^ 16)
    (hne : e' ≠ []) (hp : lastIsPendingCond e' = false) :
    (Insn.parse (.ISLT a d) e).bind (Insn.parse (.JMP j 17)) =
      some (e ++ [Insn.ConditionalBranch
        (.Expr (.Binary .Lt (.Var a) (.Var d))) (.Label 0 17)]) ∧
    Insn.parse (.JMP j' 9) e' = some (e' ++ [Insn.Branch (.Label 0 9)]) := by
  constructor
  · have h1 : Insn.parse (.ISLT a d) e =
        some (e ++ [Insn.ConditionalBranch
          (.Expr (.Binary .Lt (.Var a) (.Var d))) Label.None]) := rfl
    rw [h1, Option.some_bind]
    exact fixup_branch_pending e _ _
  · exact fixup_branch_nonpending e' _ hne hp

/-- Witness for C1 at `a = 2`, `d = 3`, an empty emitter for the fused pair
and a one-`Return` emitter for the lone `JMP`. -/
theorem compare_then_jump_fusion_witness :
    (Insn.parse (.ISLT 2 3) []).bind (Insn.parse (.JMP 0 17)) =
      some [Insn.ConditionalBranch
        (.Expr (.Binary .Lt (.Var 2) (.Var 3))) (.Label 0 17)] ∧
    Insn.parse (.JMP 0 9) [Insn.Return (.Var 4) 0] =
      some [Insn.Return (.Var 4) 0, Insn.Branch (.Label 0 9)] := by
  have h := compare_then_jump_fusion [] [Insn.Return (.Var 4) 0] 2 3 0 0
    (by decide) (by decide) (by decide) (by decide)
  simpa using h

/-- Claim C2 (code bug): the `MODVN` lift multiplies (`op!(Var b) * op!(Num c)`
builds `Expr::Mul`) while the `MODNV` lift takes the remainder — the claimed
symmetric `Rem` does not hold for `MODVN`. -/
theorem modvn_modnv_lift_operators (a b c : Nat) (e : Emitter) :
    Insn.parse (.MODVN a b c) e =
      some (e ++ [Insn.Assign (ob (.Var a)) (.Expr (.Mul (.Var b) (.Num c)))]) ∧
    Insn.parse (.MODNV a b c) e =
      some (e ++ [Insn.Assign (ob (.Var a)) (.Expr (.Rem (.Num b) (.Var c)))]) :=
  ⟨rfl, rfl⟩

/-! ### Helper lemmas about the generated decoder -/

theorem testTable_ranges_reverse :
    (collectInstructionRanges testTable).reverse =
      [⟨4, 4, [0, 1, 4]⟩, ⟨2, 4, [0, 1, 2, 4]⟩, ⟨1, 2, [0, 2, 3, 4]⟩] := by
  decide

/-- Claim C3: against the test opcode table `[A, B added=2, C removed=4,
D removed=2, AD]`, the generated decoder maps opcodes `0, 1, 2, 3` to
`A, C, D, AD` for version 1, to `A, B, C, AD` for versions 2 and 3, maps
`0, 1, 2` to `A, B, AD` for every version of at least 4, and fails with
`UnsupportedVersion` on every word for version 0.  Variants are identified
by their declaration index: `A = 0`, `B = 1`, `C = 2`, `D = 3`,
`AD = 4`. -/
theorem version_drift_decode :
    (∀ w, w &&& 0xFF = 0 → decode testTable 1 w = .ok (decodeVariant testTable 0 w)) ∧
    (∀ w, w &&& 0xFF = 1 → decode testTable 1 w = .ok (decodeVariant testTable 2 w)) ∧
    (∀ w, w &&& 0xFF = 2 → decode testTable 1 w = .ok (decodeVariant testTable 3 w)) ∧
    (∀ w, w &&& 0xFF = 3 → decode testTable 1 w = .ok (decodeVariant testTable 4 w)) ∧
    (∀ v w, v = 2 ∨ v = 3 →
      (w &&& 0xFF = 0 → decode testTable v w = .ok (decodeVariant testTable 0 w)) ∧
      (w &&& 0xFF = 1 → decode testTable v w = .ok (decodeVariant testTable 1 w)) ∧
      (w &&& 0xFF = 2 → decode testTable v w = .ok (decodeVariant testTable 2 w)) ∧
      (w &&& 0xFF = 3 → decode testTable v w = .ok (decodeVariant testTable 4 w))) ∧
    (∀ v w, 4 ≤ v →
      (w &&& 0xFF = 0 → decode testTable v w = .ok (decodeVariant testTable 0 w)) ∧
      (w &&& 0xFF = 1 → decode testTable v w = .ok (decodeVariant testTable 1 w)) ∧
      (w &&& 0xFF = 2 → decode testTable v w = .ok (decodeVariant testTable 4 w))) ∧
    (∀ w, decode testTable 0 w = .error .UnsupportedVersion) := by
  have base : ∀ v w, decode testTable v w =
      dispatch testTable v w
        [⟨4, 4, [0, 1, 4]⟩, ⟨2, 4, [0, 1, 2, 4]⟩, ⟨1, 2, [0, 2, 3, 4]⟩] := by
    intro v w
    rw [decode, testTable_ranges_reverse]
  refine ⟨?_, ?_, ?_, ?_, ?_, ?_, ?_⟩
  · intro w hw; rw [base]; simp [dispatch, rangeCheck, hw]
  · intro w hw; rw [base]; simp [dispatch, rangeCheck, hw]
  · intro w hw; rw [base]; simp [dispatch, rangeCheck, hw]
  · intro w hw; rw [base]; simp [dispatch, rangeCheck, hw]
  · intro v w hv
    refine ⟨fun hw => ?_, fun hw => ?_, fun hw => ?_, fun hw => ?_⟩ <;>
      (rcases hv with rfl | rfl <;> (rw [base]; simp [dispatch, rangeCheck, hw]))
  · intro v w hv
    refine ⟨fun hw => ?_, fun hw => ?_, fun hw => ?_⟩ <;>
      (rw [base];
       simp [dispatch, rangeCheck, hw, hv, Nat.not_lt.mpr hv])
  · intro w; rw [base]; simp [dispatch, rangeCheck]

/-- Witness for C3: version 1 maps opcode 1 to `C`, version 5 maps opcode 2
to `AD`, and version 0 fails with `UnsupportedVersion`. -/
theorem version_drift_decode_witness :
    decode testTable 1 0x12345601 = .ok (decodeVariant testTable 2 0x12345601) ∧
    decode testTable 5 0x12345602 = .ok (decodeVariant testTable 4 0x12345602) ∧
    decode testTable 0 0x12345678 = .error .UnsupportedVersion := by
  refine ⟨?_, ?_, ?_⟩
  · exact version_drift_decode.2.1 0x12345601 (by decide)
  · exact (version_drift_decode.2.2.2.2.2.1 5 0x12345602 (by decide)).2.2 (by decide)
  · exact version_drift_decode.2.2.2.2.2.2 0x12345678

theorem dispatch_ok_fields (tbl : List TableEntry) (version w : Nat)
    (rs : List VersionRange) (res : Decoded)
    (h : dispatch tbl version w rs = .ok res) :
    ∀ p ∈ res.fields, p.2 = decodeField p.1 w := by
  induction rs with
  | nil => simp [dispatch] at h
  | cons r rest ih =>
      rw [dispatch] at h
      split at h
      · split at h
        · exact absurd h (by simp)
        · split at h
          · rename_i idx _
            cases h
            intro p hp
            obtain ⟨f, _, rfl⟩ := List.mem_map.1 hp
            rfl
          · exact absurd h (by simp)
      · exact ih h

/-- Claim C4: whenever the synthesized decoder returns a variant for a word,
every extracted operand is taken from the fixed bit positions
`a = (w >> 8) & 0xFF`, `b = (w >> 16) & 0xFF`, `c = (w >> 24) & 0xFF`,
`d = (w >> 16) & 0xFFFF`; at the word `0x12345678` these positions hold
`0x56`, `0x34`, `0x12` and `0x1234`. -/
theorem decoder_field_extraction (tbl : List TableEntry) (version w : Nat)
    (res : Decoded) (h : decode tbl version w = .ok res) :
    (∀ p ∈ res.fields, p.2 = decodeField p.1 w) ∧
    decodeField .a 0x12345678 = 0x56 ∧
    decodeField .b 0x12345678 = 0x34 ∧
    decodeField .c 0x12345678 = 0x12 ∧
    decodeField .d 0x12345678 = 0x1234 :=
  ⟨dispatch_ok_fields tbl version w _ res h, by decide, by decide, by decide, by decide⟩

/-- Witness for C4 at the test table, version 1, word `0x12345601` (opcode 1
selects variant `C`). -/
theorem decoder_field_extraction_witness :
    decodeField .a 0x12345678 = 0x56 ∧
    decodeField .b 0x12345678 = 0x34 ∧
    decodeField .c 0x12345678 = 0x12 ∧
    decodeField .d 0x12345678 = 0x1234 :=
  (decoder_field_extraction testTable 1 0x12345601
    (decodeVariant testTable 2 0x12345601) rfl).2

/-- Claim C5 (code bug): the prototype frame parser never validates the
declared ULEB32 `size` against the bytes its body consumed (the source's
`TODO: Validate that we read size bytes`).  The same 7-byte body
`flags=0, numparams=0, framesize=1, sizeuv=0, sizekgc=0, sizekn=0,
sizeinsn=0` is accepted both under a declared size of 99 and under a
declared size of 1, with no `CorruptPrototype` failure. -/
theorem prototype_size_unchecked :
    Prototype.new true .little 0 [99, 0, 0, 1, 0, 0, 0, 0] =
      some (some { index := 0, flags := 0, numparams := 0, framesize := 1,
                   debug := none, instructions := [], uvs := [],
                   kgc := [], kn := [] }, []) ∧
    Prototype.new true .little 0 [1, 0, 0, 1, 0, 0, 0, 0] =
      some (some { index := 0, flags := 0, numparams := 0, framesize := 1,
                   debug := none, instructions := [], uvs := [],
                   kgc := [], kn := [] }, []) := by
  exact ⟨by decide, by decide⟩

/-- Claim C6 (code bug): the debug decoder reads exactly `sizeinsn`
line-table entries whose width crosses over at `numline = 256` and
`numline = 65536` exactly (the consumed streams below show 1-, 2- and
4-byte entries), but the constructed `Debug` stores `lines: vec![]`, so the
resulting line table is always empty instead of holding the `sizeinsn`
entries. -/
theorem debug_lines_discarded :
    Debug.new .little 1 1 0 [7, 0] =
      some ({ lines := [], upvalues := [], vars := [] }, []) ∧
    Debug.new .little 1 255 0 [7, 0] =
      some ({ lines := [], upvalues := [], vars := [] }, []) ∧
    Debug.new .little 1 256 0 [7, 8, 0] =
      some ({ lines := [], upvalues := [], vars := [] }, []) ∧
    Debug.new .little 1 65535 0 [7, 8, 0] =
      some ({ lines := [], upvalues := [], vars := [] }, []) ∧
    Debug.new .little 1 65536 0 [7, 8, 9, 10, 0] =
      some ({ lines := [], upvalues := [], vars := [] }, []) := by
  exact ⟨by decide, by decide, by decide, by decide, by decide⟩

/-- Counterexample to C7: the ULEB128-33 decoder maps the bytes `0x82 0x01`
to the value 65, not to `1 <<< 6 = 64` as claimed. -/
theorem uleb33_example_counterexample :
    (bcread_uleb128_33 [0x82, 0x01]).map (fun p => p.1) ≠
      some (false, 1 <<< 6) := by
  decide

/-- Claim C7 as amended: byte `0x00` decodes to `(is_number = false, 0)`;
byte `0x01` decodes to `(is_number = true, 0)` after which the numeric
decoder reads a further ULEB32 high word; and the bytes `0x82 0x01` decode
to `(is_number = false, (1 <<< 6) ||| 1) = (false, 65)` — bit 1 of the first
byte contributes 1 to the low six bits in addition to the continuation
byte's `1 <<< 6`. -/
theorem uleb33_boundary_values :
    bcread_uleb128_33 [0x00] = some ((false, 0), []) ∧
    bcread_uleb128_33 [0x01] = some ((true, 0), []) ∧
    (∀ rest : Stream, Numeric.new (0x01 :: rest) =
      (readLebU 32 rest).map (fun p => ((p.1 <<< 32) ||| 0, p.2))) ∧
    bcread_uleb128_33 [0x82, 0x01] = some ((false, (1 <<< 6) ||| 1), []) := by
  refine ⟨by decide, by decide, fun rest => rfl, by decide⟩

/-- Counterexample to C8: decoding the bytes `02 80 01 00` does not yield
`Signed((0x80 << 32) | 0x01)` — the `hi` half is encoded by the two bytes
`80 01` and the remaining byte `00` is `lo = 0`. -/
theorem signed_constant_counterexample :
    Complex.new 1 [0x02, 0x80, 0x01, 0x00] ≠
      some (.Signed (u64CastSigned ((0x80 <<< 32) ||| 0x01)), []) := by
  decide

/-- Claim C8 as amended: the bytes `02 80 01 00` decode as tag 2 (`Signed`)
with ULEB32 halves `hi = 0x80` (bytes `80 01`) and `lo = 0` (byte `00`),
combined as `(hi << 32) | lo` and reinterpreted as `i64`, giving
`Signed(0x80 << 32)`. -/
theorem signed_constant_decode :
    Complex.new 1 [0x02, 0x80, 0x01, 0x00] =
      some (.Signed (u64CastSigned (0x80 <<< 32)), []) ∧
    readLebU 32 [0x80, 0x01] = some (0x80, []) ∧
    readLebU 32 [0x00] = some (0x00, []) := by
  exact ⟨by decide, by decide, by decide⟩

/-- Counterexample to C9: lifting `TSETS{0, 1, 2}` does not emit
`Assign{Index(Var 1, Str 2), Str 0}` — the table key is lifted as `Var 2`,
not `Str 2`. -/
theorem tset_key_counterexample :
    Insn.parse (.TSETS 0 1 2) [] ≠
      some [Insn.Assign (.Expr (.Index (.Var 1) (.Str 2))) (ob (.Str 0))] := by
  decide

/-- Claim C9 as amended: all three `TSET` lifts build the index key as
`Var(c)`; the mnemonic's `Var`/`Str`/`Lit` tag is applied to the stored
operand `a` only. -/
theorem tset_lift_rules (a b c : Nat) (e : Emitter) :
    Insn.parse (.TSETV a b c) e =
      some (e ++ [Insn.Assign (.Expr (.Index (.Var b) (.Var c))) (ob (.Var a))]) ∧
    Insn.parse (.TSETS a b c) e =
      some (e ++ [Insn.Assign (.Expr (.Index (.Var b) (.Var c))) (ob (.Str a))]) ∧
    Insn.parse (.TSETB a b c) e =
      some (e ++ [Insn.Assign (.Expr (.Index (.Var b) (.Var c)))
        (ob (.UnsignedLiteral a))]) :=
  ⟨rfl, rfl, rfl⟩

/-- Claim C10: `fixup_branch` on an empty emitter is the
`instructions[len() - 1]` underflow panic (`none` here) rather than an
appended `Branch` — lifting `JMP` as the very first instruction fails — and
on any non-empty emitter `fixup_branch` is total. -/
theorem fixup_branch_empty_panics :
    (∀ tgt, Emitter.fixup_branch [] tgt = none) ∧
    (∀ a d, Insn.parse (.JMP a d) [] = none) ∧
    (∀ (e : Emitter) (tgt : Label), e ≠ [] →
      (Emitter.fixup_branch e tgt).isSome = true) := by
  refine ⟨fun tgt => rfl, fun a d => rfl, fun e tgt hne => ?_⟩
  unfold Emitter.fixup_branch
  cases hlast : e.getLast? with
  | none =>
      rw [List.getLast?_eq_none_iff] at hlast
      exact absurd hlast hne
  | some i =>
      cases i with
      | ConditionalBranch cond target => cases target <;> rfl
      | Assign lhs rhs => rfl
      | Branch t => rfl
      | Return base count => rfl

/-- Witness for C10: a one-instruction emitter makes `fixup_branch`
succeed. -/
theorem fixup_branch_empty_panics_witness :
    (Emitter.fixup_branch [Insn.Return (.Var 0) 0] Label.None).isSome = true :=
  fixup_branch_empty_panics.2.2 [Insn.Return (.Var 0) 0] Label.None (by decide)

end RS7
